import Mathlib

/-!
Shallow embedding of `EthPingPong.py` (the transaction lifecycle controller):
per-account nonce tracking, fee computation (`compute_fee_values`), gas-limit
estimation, transaction building/signing/broadcast with error classification
and nonce resync (`build_and_send`), and the alternating driver (`main_loop`).

External RPC calls (block fetch, priority-fee recommendation, gas price, gas
estimation, broadcast, receipt wait, pending-nonce re-query) are modelled as
per-cycle oracles: each fallible call is an `Option`/`Except` value supplied
by the environment. `main_loop` is an infinite loop; it is embedded as a
stream semantics (`stateAt` / `outcomeAt`) over an oracle stream
`env : Nat → CycleOracle`, with the loop's `turn` counter as the stream index.
-/

namespace EthPingPong

/-- The two wallet labels, `"A"` and `"B"` in the Python `nonces` dict. -/
inductive Key where
  | A
  | B
deriving DecidableEq, Repr

/-- The other wallet: destination of a transfer sent by `k`. -/
def Key.other : Key → Key
  | .A => .B
  | .B => .A

/-- The global `nonces` dict: one stored next-nonce per wallet label. -/
structure NonceState where
  nA : Nat
  nB : Nat
deriving DecidableEq, Repr

/-- `nonces[k]` -/
def NonceState.get : NonceState → Key → Nat
  | s, .A => s.nA
  | s, .B => s.nB

/-- `nonces[k] = v` -/
def NonceState.set : NonceState → Key → Nat → NonceState
  | s, .A, v => { s with nA := v }
  | s, .B, v => { s with nB := v }

/-- `w3.to_wei(2, "gwei")` unit: one gwei in wei. -/
def GWEI : Nat := 1000000000

/-- Result of `compute_fee_values`: either the EIP-1559 pair
`{"maxPriorityFeePerGas": ..., "maxFeePerGas": ...}` or the legacy
`{"gasPrice": ...}` single value. -/
inductive FeeParams where
  | eip1559 (maxPriorityFeePerGas maxFeePerGas : Nat)
  | legacy (gasPrice : Nat)
deriving DecidableEq, Repr

/-- Oracle for the network calls made by `compute_fee_values`.
`latestBlock = none` models `w3.eth.get_block("latest")` raising;
`latestBlock = some bf` models a fetched block whose
`baseFeePerGas` is `bf` (`bf = none` when the field is absent, i.e. a legacy
network). `maxPriorityFee = none` models `w3.eth.max_priority_fee` raising;
`gasPrice = none` models `w3.eth.gas_price` raising. -/
structure FeeOracle where
  latestBlock : Option (Option Nat)
  maxPriorityFee : Option Nat
  gasPrice : Option Nat
deriving DecidableEq, Repr

/-- `compute_fee_values` (EthPingPong.py lines 49-71). `int(base_fee * 2.5)`
is the exact floor `base_fee * 5 / 2` (Nat division). A raising network call
propagates as `Except.error`. -/
def compute_fee_values (o : FeeOracle) : Except Unit FeeParams :=
  match o.latestBlock with
  | none => .error ()
  | some base_fee? =>
    match base_fee? with
    | some base_fee =>
      let priority := match o.maxPriorityFee with
        | some p => p
        | none => 2 * GWEI
      let max_fee := base_fee * 5 / 2 + priority
      .ok (.eip1559 priority max_fee)
    | none =>
      match o.gasPrice with
      | some gp => .ok (.legacy gp)
      | none => .error ()

/-- Python `str.lower()`. -/
def strLower (s : String) : String := String.mk (s.data.map Char.toLower)

/-- `needle` is a leading segment of `hay`. -/
def leadMatch : List Char → List Char → Bool
  | [], _ => true
  | _ :: _, [] => false
  | a :: as, b :: bs => a == b && leadMatch as bs

/-- `needle` occurs contiguously somewhere in `hay`. -/
def occursIn (needle : List Char) : List Char → Bool
  | [] => leadMatch needle []
  | b :: bs => leadMatch needle (b :: bs) || occursIn needle bs

/-- Python `needle in hay` on strings: contiguous-substring test. -/
def containsSub (needle hay : String) : Bool := occursIn needle.data hay.data

/-- The error classification of `build_and_send`'s except-handler (line 118):
`"nonce" in errstr.lower() or "replacement transaction underpriced" in
errstr.lower() or "already known" in errstr.lower()`. -/
def is_conflict_error (errstr : String) : Bool :=
  containsSub "nonce" (strLower errstr) ||
  containsSub "replacement transaction underpriced" (strLower errstr) ||
  containsSub "already known" (strLower errstr)

/-- Outcome of `w3.eth.wait_for_transaction_receipt`: a receipt, a
`TimeExhausted` timeout, or some other exception with message `msg`. -/
inductive ReceiptOutcome where
  | receipt (blockNumber status : Nat)
  | timeout
  | err (msg : String)
deriving DecidableEq, Repr

instance {ε α : Type} [DecidableEq ε] [DecidableEq α] : DecidableEq (Except ε α) := fun a b =>
  match a, b with
  | .ok x, .ok y =>
    if h : x = y then .isTrue (by rw [h]) else .isFalse (fun hc => h (Except.ok.inj hc))
  | .error e, .error f =>
    if h : e = f then .isTrue (by rw [h]) else .isFalse (fun hc => h (Except.error.inj hc))
  | .ok _, .error _ => .isFalse (fun hc => Except.noConfusion hc)
  | .error _, .ok _ => .isFalse (fun hc => Except.noConfusion hc)

/-- Per-cycle oracle: the results of the external calls one `build_and_send`
invocation can make. `estimateGas = none` models `w3.eth.estimate_gas`
raising; `broadcast = .error msg` models `w3.eth.send_raw_transaction`
raising with `str(e) = msg`; `resyncCount` is the result of the pending
nonce re-query `w3.eth.get_transaction_count(addr, "pending")` in the
except-handler (`none` = that re-query itself raises). -/
structure CycleOracle where
  estimateGas : Option Nat
  fee : FeeOracle
  chainId : Nat
  broadcast : Except String Nat
  receiptWait : ReceiptOutcome
  resyncCount : Option Nat
deriving DecidableEq, Repr

/-- Process configuration: `WAIT_FOR_CONFIRMATIONS` (a Python `int`, may be
negative) and the constant transfer amount in wei. -/
structure Config where
  waitForConfirmations : Int
  amountWei : Nat
deriving DecidableEq, Repr

/-- `tx_base` after `gas` and fee fields are merged in: the fully built
transaction record passed to `Account.sign_transaction`. The destination
address is identified by its wallet label. -/
structure BuiltTx where
  toAddr : Key
  value : Nat
  nonce : Nat
  chainId : Nat
  gas : Nat
  fee : FeeParams
deriving DecidableEq, Repr

/-- The gas limit chosen at lines 84-90: `math.floor(estimated * 1.1)` on
success (exact floor `e * 11 / 10`), fallback `21000` when
`w3.eth.estimate_gas` raises. -/
def gas_limit_of : Option Nat → Nat
  | some e => e * 11 / 10
  | none => 21000

/-- Return value of `build_and_send`: the tx hash (`tx_hash.hex()`), `None`,
or a propagated exception (caught one level up in `main_loop`). -/
inductive SendResult where
  | submitted (txHash : Nat)
  | failed
  | raised
deriving DecidableEq, Repr

/-- Observable outcome of one `build_and_send` call: return value, final
`nonces` state, the transaction that was built and signed (if control reached
line 99), the `(timeout, poll_latency)` arguments of the receipt wait if one
was performed, whether the nonce-reset branch of the except-handler ran
(`conflictBranch`), how many pending nonce re-queries were issued
(`resyncQueries`), and whether the stored nonce was actually overwritten from
such a re-query (`resyncApplied`). -/
structure SendOutcome where
  result : SendResult
  nonces : NonceState
  built : Option BuiltTx
  waitCall : Option (Nat × Nat)
  conflictBranch : Bool
  resyncQueries : Nat
  resyncApplied : Bool
deriving DecidableEq, Repr

/-- The transaction record assembled at lines 76-96: `tx_base` (destination,
amount, `nonces[nonce_key]`, chain id) plus the `gas` field and the merged fee
fields. -/
def builtTxOf (cfg : Config) (o : CycleOracle) (s : NonceState)
    (toKey nonce_key : Key) (fee_vals : FeeParams) : BuiltTx :=
  ⟨toKey, cfg.amountWei, s.get nonce_key, o.chainId, gas_limit_of o.estimateGas, fee_vals⟩

/-- Lines 99-126 of `build_and_send`, after the transaction `tx` has been
built and signed: broadcast it; on acceptance `nonces[nonce_key] += 1`, then
optionally wait for a receipt (`timeout=120, poll_latency=2`) when
`WAIT_FOR_CONFIRMATIONS > 0`, swallowing `TimeExhausted`, and return the tx
hash; any exception raised inside the outer try (by the broadcast or by the
receipt wait) lands in the except-handler: it is classified by
`is_conflict_error` on `str(e).lower()`, a conflict triggers one pending
nonce re-query whose result (when the re-query succeeds) overwrites
`nonces[nonce_key]`, and `None` is returned. -/
def sendSigned (cfg : Config) (o : CycleOracle) (s : NonceState)
    (nonce_key : Key) (tx : BuiltTx) : SendOutcome :=
  match o.broadcast with
  | .ok h =>
    let s1 := s.set nonce_key (s.get nonce_key + 1)
    if cfg.waitForConfirmations > 0 then
      match o.receiptWait with
      | .receipt _ _ => ⟨.submitted h, s1, some tx, some (120, 2), false, 0, false⟩
      | .timeout => ⟨.submitted h, s1, some tx, some (120, 2), false, 0, false⟩
      | .err m =>
        if is_conflict_error m then
          match o.resyncCount with
          | some v => ⟨.failed, s1.set nonce_key v, some tx, some (120, 2), true, 1, true⟩
          | none => ⟨.failed, s1, some tx, some (120, 2), true, 1, false⟩
        else ⟨.failed, s1, some tx, some (120, 2), false, 0, false⟩
    else ⟨.submitted h, s1, some tx, none, false, 0, false⟩
  | .error msg =>
    if is_conflict_error msg then
      match o.resyncCount with
      | some v => ⟨.failed, s.set nonce_key v, some tx, none, true, 1, true⟩
      | none => ⟨.failed, s, some tx, none, true, 1, false⟩
    else ⟨.failed, s, some tx, none, false, 0, false⟩

/-- `build_and_send(from_acct, to_addr, nonce_key)` (EthPingPong.py lines
73-126). The nonce used is `nonces[nonce_key]`; gas estimation falls back to
21000; a fee-query failure propagates (nothing signed, state untouched);
otherwise the built transaction is signed and handed to `sendSigned`. -/
def build_and_send (cfg : Config) (o : CycleOracle) (s : NonceState)
    (toKey nonce_key : Key) : SendOutcome :=
  match compute_fee_values o.fee with
  | .error _ => ⟨.raised, s, none, none, false, 0, false⟩
  | .ok fee_vals => sendSigned cfg o s nonce_key (builtTxOf cfg o s toKey nonce_key fee_vals)

/-- Oracle for `get_initial_nonces`: the two pending
`w3.eth.get_transaction_count(addr, "pending")` results at startup. -/
structure InitOracle where
  pendingA : Nat
  pendingB : Nat
deriving DecidableEq, Repr

/-- `get_initial_nonces` (lines 41-44). -/
def get_initial_nonces (o : InitOracle) : NonceState :=
  ⟨o.pendingA, o.pendingB⟩

/-- Sender selected by `main_loop` at turn `n`: even turns send from A,
odd turns from B (lines 132-141). -/
def keyOf (turn : Nat) : Key := if turn % 2 = 0 then .A else .B

/-- Receiver at turn `n`: the other wallet's address. -/
def recvOf (turn : Nat) : Key := (keyOf turn).other

/-- The `nonces` state at the start of turn `n` of `main_loop`, starting
from `s0` (the `get_initial_nonces` result) under oracle stream `env`.
The loop catches every exception from `build_and_send` and always executes
`turn += 1`, so turn `n + 1` runs on turn `n`'s resulting state whatever the
outcome. -/
def stateAt (cfg : Config) (env : Nat → CycleOracle) (s0 : NonceState) :
    Nat → NonceState
  | 0 => s0
  | n + 1 =>
    (build_and_send cfg (env n) (stateAt cfg env s0 n) (recvOf n) (keyOf n)).nonces

/-- The outcome of turn `n` of `main_loop`. -/
def outcomeAt (cfg : Config) (env : Nat → CycleOracle) (s0 : NonceState)
    (n : Nat) : SendOutcome :=
  build_and_send cfg (env n) (stateAt cfg env s0 n) (recvOf n) (keyOf n)

/-- Whether a receipt-wait outcome is an exception other than the swallowed
`TimeExhausted`. -/
def ReceiptOutcome.isErr : ReceiptOutcome → Bool
  | .err _ => true
  | _ => false

/-! ### Concrete inputs used by witnesses and counterexamples -/

/-- Fee oracle of a healthy EIP-1559 network: base fee 100, recommended
priority fee 10, legacy gas price 7. -/
def feeW : FeeOracle := ⟨some (some 100), some 10, some 7⟩

/-- Fee oracle whose block fetch raises. -/
def feeBad : FeeOracle := ⟨none, none, none⟩

/-- Configuration with `WAIT_FOR_CONFIRMATIONS = 1` and amount 10 wei. -/
def cfgW : Config := ⟨1, 10⟩

/-- Configuration with a negative (hence non-zero) confirmation-wait count. -/
def cfgNegW : Config := ⟨-1, 10⟩

/-- A cycle where everything succeeds (broadcast accepted, receipt wait
times out harmlessly). -/
def oAcceptW : CycleOracle := ⟨some 21000, feeW, 1, .ok 5, .timeout, none⟩

/-- A successful cycle whose gas simulation returned 100000. -/
def oEstOK : CycleOracle := ⟨some 100000, feeW, 1, .ok 5, .timeout, none⟩

/-- A cycle whose gas simulation call raised. -/
def oEstFail : CycleOracle := ⟨none, feeW, 1, .ok 5, .timeout, none⟩

/-- A cycle whose broadcast is rejected with a non-conflict error. -/
def oOtherFailW : CycleOracle :=
  ⟨some 21000, feeW, 1, .error "insufficient funds", .timeout, some 99⟩

/-- Broadcast rejected with a conflict error; the pending re-query returns 42. -/
def oConfW : CycleOracle :=
  ⟨some 21000, feeW, 1, .error "nonce too low", .timeout, some 42⟩

/-- Broadcast rejected with a conflict error; the pending re-query raises. -/
def oConfBadResyncW : CycleOracle :=
  ⟨some 21000, feeW, 1, .error "nonce too low", .timeout, none⟩

/-- Broadcast accepted but the receipt wait raises a nonce-related error; the
pending re-query returns 42. -/
def oWaitErrW : CycleOracle :=
  ⟨some 21000, feeW, 1, .ok 5, .err "nonce mismatch", some 42⟩

/-- Broadcast accepted, receipt wait raises a nonce-related error, and the
pending re-query itself raises. -/
def oWaitErrBadResyncW : CycleOracle :=
  ⟨some 21000, feeW, 1, .ok 5, .err "nonce mismatch", none⟩

/-- Broadcast accepted but the receipt wait raises a non-nonce error. -/
def oWaitErrOtherW : CycleOracle :=
  ⟨some 21000, feeW, 1, .ok 5, .err "boom", none⟩

/-- A cycle whose fee query fails. -/
def oFeeFailW : CycleOracle := ⟨some 21000, feeBad, 1, .ok 5, .timeout, none⟩

/-- The transaction built by `build_and_send cfgW oEstOK ⟨0, 0⟩ .B .A`. -/
def txW1 : BuiltTx := ⟨Key.B, 10, 0, 1, 110000, .eip1559 10 260⟩

/-- The transaction built by `build_and_send cfgW oEstFail ⟨0, 0⟩ .B .A`. -/
def txW2 : BuiltTx := ⟨Key.B, 10, 0, 1, 21000, .eip1559 10 260⟩

/-- The transaction built at turn 0 of the all-success run from `⟨5, 3⟩`. -/
def tiW : BuiltTx := ⟨Key.B, 10, 5, 1, 23100, .eip1559 10 260⟩

/-- The transaction built at turn 2 of the all-success run from `⟨5, 3⟩`. -/
def tjW : BuiltTx := ⟨Key.B, 10, 6, 1, 23100, .eip1559 10 260⟩

/-- Oracle stream whose turn 0 has an accepted broadcast followed by a
non-timeout, non-conflict receipt-wait error (so the call returns `None`
although the network accepted the transaction), and whose later turns
succeed outright. -/
def envC1W : Nat → CycleOracle := fun n => if n = 0 then oWaitErrOtherW else oAcceptW

/-! ### Basic lemmas about the embedded state and `build_and_send` -/

theorem NonceState.get_set_eq (s : NonceState) (k : Key) (v : Nat) :
    (s.set k v).get k = v := by
  cases k <;> rfl

theorem NonceState.get_set_ne (s : NonceState) (k y : Key) (v : Nat) (h : y ≠ k) :
    (s.set k v).get y = s.get y := by
  cases k <;> cases y <;> first | rfl | exact absurd rfl h

theorem NonceState.ext_get (s t : NonceState) (h : ∀ k, s.get k = t.get k) : s = t := by
  cases s
  cases t
  have hA := h .A
  have hB := h .B
  simp only [NonceState.get] at hA hB
  simp [hA, hB]

/-- Whatever branch `sendSigned` takes, the signed transaction it reports as
built is the one it was handed. -/
theorem sendSigned_built (cfg : Config) (o : CycleOracle) (s : NonceState)
    (nk : Key) (tx : BuiltTx) : (sendSigned cfg o s nk tx).built = some tx := by
  unfold sendSigned
  repeat' split
  all_goals rfl

/-- `sendSigned` touches no nonce entry other than `nonce_key`. -/
theorem sendSigned_frame (cfg : Config) (o : CycleOracle) (s : NonceState)
    (nk : Key) (tx : BuiltTx) (y : Key) (h : y ≠ nk) :
    (sendSigned cfg o s nk tx).nonces.get y = s.get y := by
  unfold sendSigned
  repeat' split
  all_goals simp [NonceState.get_set_ne _ _ _ _ h]

/-- When no resync overwrite happened, `sendSigned` leaves the `nonce_key`
entry unchanged or advances it by one; in particular it never decreases it. -/
theorem sendSigned_mono (cfg : Config) (o : CycleOracle) (s : NonceState)
    (nk : Key) (tx : BuiltTx) (h : (sendSigned cfg o s nk tx).resyncApplied = false) :
    s.get nk ≤ (sendSigned cfg o s nk tx).nonces.get nk := by
  unfold sendSigned at h ⊢
  repeat' split at h <;> repeat' split
  all_goals simp_all [NonceState.get_set_eq]

/-- A fee-query failure makes `build_and_send` propagate at once: nothing is
built or signed, the nonce state is untouched. -/
theorem bas_raised (cfg : Config) (o : CycleOracle) (s : NonceState)
    (tk nk : Key) (u : Unit) (hfee : compute_fee_values o.fee = .error u) :
    build_and_send cfg o s tk nk = ⟨.raised, s, none, none, false, 0, false⟩ := by
  unfold build_and_send
  rw [hfee]

/-- When the fee query succeeds, `build_and_send` is `sendSigned` on the
built transaction. -/
theorem bas_ok (cfg : Config) (o : CycleOracle) (s : NonceState)
    (tk nk : Key) (fv : FeeParams) (hfee : compute_fee_values o.fee = .ok fv) :
    build_and_send cfg o s tk nk =
      sendSigned cfg o s nk (builtTxOf cfg o s tk nk fv) := by
  unfold build_and_send
  rw [hfee]

/-- `build_and_send` touches no nonce entry other than `nonce_key`. -/
theorem bas_frame (cfg : Config) (o : CycleOracle) (s : NonceState)
    (tk nk y : Key) (h : y ≠ nk) :
    (build_and_send cfg o s tk nk).nonces.get y = s.get y := by
  cases hfee : compute_fee_values o.fee with
  | error u => rw [bas_raised cfg o s tk nk u hfee]
  | ok fv => rw [bas_ok cfg o s tk nk fv hfee]; exact sendSigned_frame cfg o s nk _ y h

/-- When no resync overwrite happened, `build_and_send` never decreases the
`nonce_key` entry. -/
theorem bas_mono (cfg : Config) (o : CycleOracle) (s : NonceState)
    (tk nk : Key) (h : (build_and_send cfg o s tk nk).resyncApplied = false) :
    s.get nk ≤ (build_and_send cfg o s tk nk).nonces.get nk := by
  cases hfee : compute_fee_values o.fee with
  | error u => rw [bas_raised cfg o s tk nk u hfee]
  | ok fv =>
    rw [bas_ok cfg o s tk nk fv hfee] at h ⊢
    exact sendSigned_mono cfg o s nk _ h

/-- A `sendSigned` call that returns the tx hash has advanced the stored
nonce by exactly one and performed no resync. -/
theorem sendSigned_submitted (cfg : Config) (o : CycleOracle) (s : NonceState)
    (nk : Key) (tx : BuiltTx) (h : Nat)
    (hs : (sendSigned cfg o s nk tx).result = .submitted h) :
    (sendSigned cfg o s nk tx).nonces = s.set nk (s.get nk + 1) ∧
      (sendSigned cfg o s nk tx).resyncApplied = false ∧
      o.broadcast = .ok h := by
  unfold sendSigned at hs ⊢
  repeat' split at hs <;> repeat' split
  all_goals simp_all

/-- A `build_and_send` call that returns a tx hash built the transaction at
the entry nonce, advanced the stored nonce by exactly one, and resynced
nothing. -/
theorem bas_submitted (cfg : Config) (o : CycleOracle) (s : NonceState)
    (tk nk : Key) (h : Nat)
    (hs : (build_and_send cfg o s tk nk).result = .submitted h) :
    (build_and_send cfg o s tk nk).nonces.get nk = s.get nk + 1 ∧
      (build_and_send cfg o s tk nk).resyncApplied = false ∧
      (∃ tx, (build_and_send cfg o s tk nk).built = some tx ∧ tx.nonce = s.get nk) ∧
      o.broadcast = .ok h := by
  cases hfee : compute_fee_values o.fee with
  | error u => rw [bas_raised cfg o s tk nk u hfee] at hs; cases hs
  | ok fv =>
    rw [bas_ok cfg o s tk nk fv hfee] at hs ⊢
    obtain ⟨h1, h2, h3⟩ := sendSigned_submitted cfg o s nk _ h hs
    refine ⟨?_, h2, ⟨_, sendSigned_built cfg o s nk _, rfl⟩, h3⟩
    rw [h1, NonceState.get_set_eq]

/-! ### Trace-level lemmas for `main_loop` -/

theorem stateAt_succ (cfg : Config) (env : Nat → CycleOracle) (s0 : NonceState)
    (n : Nat) : stateAt cfg env s0 (n + 1) = (outcomeAt cfg env s0 n).nonces := rfl

/-- One loop turn leaves every other wallet's nonce entry unchanged. -/
theorem stateAt_step_frame (cfg : Config) (env : Nat → CycleOracle)
    (s0 : NonceState) (n : Nat) (X : Key) (h : keyOf n ≠ X) :
    (stateAt cfg env s0 (n + 1)).get X = (stateAt cfg env s0 n).get X := by
  rw [stateAt_succ]
  exact bas_frame cfg (env n) (stateAt cfg env s0 n) (recvOf n) (keyOf n) X (Ne.symm h)

/-- Across any stretch of turns containing no resync overwrite of wallet `X`,
`X`'s stored nonce never decreases. -/
theorem stateAt_mono (cfg : Config) (env : Nat → CycleOracle) (s0 : NonceState)
    (X : Key) (a b : Nat) (hab : a ≤ b)
    (hnores : ∀ l, l < b → a ≤ l → keyOf l = X →
      (outcomeAt cfg env s0 l).resyncApplied = false) :
    (stateAt cfg env s0 a).get X ≤ (stateAt cfg env s0 b).get X := by
  induction b with
  | zero => cases Nat.le_zero.mp hab; exact le_refl _
  | succ n ih =>
    rcases Nat.lt_or_ge a (n + 1) with hlt | hge
    · have ha_n : a ≤ n := Nat.lt_succ_iff.mp hlt
      have step : (stateAt cfg env s0 n).get X ≤ (stateAt cfg env s0 (n + 1)).get X := by
        by_cases hk : keyOf n = X
        · rw [stateAt_succ]
          have hres := hnores n (Nat.lt_succ_self n) ha_n hk
          unfold outcomeAt at hres ⊢
          rw [hk] at hres ⊢
          exact bas_mono cfg (env n) (stateAt cfg env s0 n) (recvOf n) X hres
        · rw [stateAt_step_frame cfg env s0 n X hk]
      exact le_trans (ih ha_n (fun l hl hal hk => hnores l (Nat.lt_succ_of_lt hl) hal hk)) step
    · have : a = n + 1 := Nat.le_antisymm hab hge
      rw [this]

/-! ### Claim C3 -/

/-- Claim C3: when the latest block carries a base fee, `compute_fee_values`
returns the dynamic-fee pair whose priority fee is the network-recommended
value (exactly 2 gwei when that recommendation is unavailable) and whose max
fee is `floor(baseFee * 2.5) + priorityFee`; when the block carries no base
fee, it returns the single legacy gas-price value with no priority/max
fields. -/
theorem C3_fee_computation (o : FeeOracle) (bf gp : Nat) :
    (o.latestBlock = some (some bf) →
      compute_fee_values o =
        .ok (.eip1559 (o.maxPriorityFee.getD (2 * GWEI))
          (bf * 5 / 2 + o.maxPriorityFee.getD (2 * GWEI)))) ∧
    (o.latestBlock = some none → o.gasPrice = some gp →
      compute_fee_values o = .ok (.legacy gp)) := by
  constructor
  · intro h
    unfold compute_fee_values
    rw [h]
    cases hmp : o.maxPriorityFee <;> simp [hmp, Option.getD]
  · intro h hg
    unfold compute_fee_values
    rw [h, hg]

/-- Witness for C3: base fee 100 with recommended priority fee 10 yields
`maxFee = 260`; a block without base fee yields the legacy gas price 7. -/
theorem C3_witness :
    compute_fee_values ⟨some (some 100), some 10, some 7⟩ =
        .ok (.eip1559 10 260) ∧
      compute_fee_values ⟨some none, none, some 7⟩ = .ok (.legacy 7) :=
  ⟨(C3_fee_computation ⟨some (some 100), some 10, some 7⟩ 100 7).1 rfl,
   (C3_fee_computation ⟨some none, none, some 7⟩ 0 7).2 rfl rfl⟩

/-! ### Claim C4 -/

/-- Claim C4: every transaction that gets built carries resource limit
`floor(e * 1.1)` when the network simulation succeeded with estimate `e`, and
exactly 21000 when the simulation call failed. -/
theorem C4_resource_limit (cfg : Config) (o : CycleOracle) (s : NonceState)
    (tk nk : Key) (tx : BuiltTx)
    (hb : (build_and_send cfg o s tk nk).built = some tx) :
    (∀ e, o.estimateGas = some e → tx.gas = e * 11 / 10) ∧
    (o.estimateGas = none → tx.gas = 21000) := by
  have hgas : tx.gas = gas_limit_of o.estimateGas := by
    cases hfee : compute_fee_values o.fee with
    | error u =>
      rw [bas_raised cfg o s tk nk u hfee] at hb
      cases hb
    | ok fv =>
      rw [bas_ok cfg o s tk nk fv hfee, sendSigned_built] at hb
      have htx : tx = builtTxOf cfg o s tk nk fv := (Option.some.inj hb).symm
      rw [htx]
      rfl
  constructor
  · intro e he
    rw [hgas, he]
    rfl
  · intro he
    rw [hgas, he]
    rfl

/-- Witness for C4: estimate 100000 yields gas limit 110000; a failed
estimation yields exactly 21000. -/
theorem C4_witness : txW1.gas = 110000 ∧ txW2.gas = 21000 := by
  have h1 := (C4_resource_limit cfgW oEstOK ⟨0, 0⟩ Key.B Key.A txW1 (by decide)).1
    100000 (by decide)
  have h2 := (C4_resource_limit cfgW oEstFail ⟨0, 0⟩ Key.B Key.A txW2 (by decide)).2
    (by decide)
  exact ⟨h1, h2⟩

/-! ### Claim C5 -/

/-- Claim C5: the cycle counter starts at 0; an even counter value selects
sender A / receiver B and an odd value sender B / receiver A; the counter
advances by one after every cycle (turn `n + 1` always runs on turn `n`'s
resulting state, whatever the outcome, including a propagated error), so the
A→B / B→A pattern is strictly periodic with period 2 regardless of
intervening failures. -/
theorem C5_alternation (cfg : Config) (env : Nat → CycleOracle)
    (s0 : NonceState) (n : Nat) :
    keyOf 0 = Key.A ∧ recvOf 0 = Key.B ∧
      (keyOf n = Key.A ↔ n % 2 = 0) ∧ (keyOf n = Key.B ↔ n % 2 = 1) ∧
      (recvOf n = Key.B ↔ n % 2 = 0) ∧ (recvOf n = Key.A ↔ n % 2 = 1) ∧
      keyOf (n + 2) = keyOf n ∧ recvOf (n + 2) = recvOf n ∧
      stateAt cfg env s0 (n + 1) = (outcomeAt cfg env s0 n).nonces := by
  have hm2 : (n + 2) % 2 = n % 2 := Nat.add_mod_right n 2
  rcases Nat.mod_two_eq_zero_or_one n with h | h <;>
    refine ⟨rfl, rfl, ?_, ?_, ?_, ?_, ?_, ?_, rfl⟩ <;>
      simp [keyOf, recvOf, Key.other, h, hm2]

/-! ### Claim C9 -/

/-- Claim C9: every invocation of `build_and_send` with nonce key `nk`
leaves the nonce entry of any other account unchanged, whatever path it
takes (success, conflict resync, other failure, or a propagated fee-query
error). -/
theorem C9_other_account_unchanged (cfg : Config) (o : CycleOracle)
    (s : NonceState) (tk nk y : Key) (h : y ≠ nk) :
    (build_and_send cfg o s tk nk).nonces.get y = s.get y :=
  bas_frame cfg o s tk nk y h

/-- Witness for C9: a full success cycle keyed on A leaves B's entry at 3. -/
theorem C9_witness :
    (build_and_send cfgW oAcceptW ⟨5, 3⟩ Key.B Key.A).nonces.get Key.B = 3 :=
  C9_other_account_unchanged cfgW oAcceptW ⟨5, 3⟩ Key.B Key.A Key.B (by decide)

/-! ### Claim C6 -/

/-- On an accepted broadcast whose receipt wait raises no exception,
`sendSigned` advances the stored nonce of `nonce_key` by exactly one. -/
theorem sendSigned_accept_advance (cfg : Config) (o : CycleOracle)
    (s : NonceState) (nk : Key) (tx : BuiltTx) (h : Nat)
    (hb : o.broadcast = .ok h) (hr : o.receiptWait.isErr = false) :
    (sendSigned cfg o s nk tx).nonces = s.set nk (s.get nk + 1) := by
  unfold sendSigned
  rw [hb]
  by_cases hw : cfg.waitForConfirmations > 0 <;>
    cases hrw : o.receiptWait <;>
      simp_all [ReceiptOutcome.isErr, hw]
  all_goals split <;> rfl

/-- On a rejected broadcast with no resync overwrite, `sendSigned` leaves
the nonce state untouched. -/
theorem sendSigned_error_noresync (cfg : Config) (o : CycleOracle)
    (s : NonceState) (nk : Key) (tx : BuiltTx) (msg : String)
    (hb : o.broadcast = .error msg)
    (h : (sendSigned cfg o s nk tx).resyncApplied = false) :
    (sendSigned cfg o s nk tx).nonces = s := by
  unfold sendSigned at h ⊢
  rw [hb] at h ⊢
  repeat' split at h <;> repeat' split
  all_goals simp_all

/-- Claim C6: after initialization each wallet's stored next-nonce equals the
pending-inclusive network query result at that instant; after a broadcast is
accepted (and the optional receipt wait raises no exception) the sender's
stored value is incremented by exactly one; and when the broadcast is
rejected, no nonce entry changes unless a resync overwrote it — advancement
happens only on accepted broadcast. -/
theorem C6_init_and_advance (io : InitOracle) (cfg : Config) (o : CycleOracle)
    (s : NonceState) (tk nk : Key) (h : Nat) (fv : FeeParams) :
    ((get_initial_nonces io).get Key.A = io.pendingA ∧
      (get_initial_nonces io).get Key.B = io.pendingB) ∧
    (compute_fee_values o.fee = .ok fv → o.broadcast = .ok h →
      o.receiptWait.isErr = false →
      (build_and_send cfg o s tk nk).nonces.get nk = s.get nk + 1) ∧
    (∀ msg, o.broadcast = .error msg →
      (build_and_send cfg o s tk nk).resyncApplied = false →
      (build_and_send cfg o s tk nk).nonces = s) := by
  refine ⟨⟨rfl, rfl⟩, ?_, ?_⟩
  · intro hfee hb hr
    rw [bas_ok cfg o s tk nk fv hfee,
      sendSigned_accept_advance cfg o s nk _ h hb hr, NonceState.get_set_eq]
  · intro msg hb hres
    cases hfee : compute_fee_values o.fee with
    | error u => rw [bas_raised cfg o s tk nk u hfee]
    | ok fv2 =>
      rw [bas_ok cfg o s tk nk fv2 hfee] at hres ⊢
      exact sendSigned_error_noresync cfg o s nk _ msg hb hres

/-- Witness for C6: initialization stores the queried values 4 and 9; an
accepted broadcast advances A's entry from 5 to 6; a rejected broadcast with
no resync leaves the state at `⟨5, 3⟩`. -/
theorem C6_witness :
    (get_initial_nonces ⟨4, 9⟩).get Key.A = 4 ∧
    (get_initial_nonces ⟨4, 9⟩).get Key.B = 9 ∧
    (build_and_send cfgW oAcceptW ⟨5, 3⟩ Key.B Key.A).nonces.get Key.A = 6 ∧
    (build_and_send cfgW oOtherFailW ⟨5, 3⟩ Key.B Key.A).nonces = ⟨5, 3⟩ := by
  have h1 := (C6_init_and_advance ⟨4, 9⟩ cfgW oAcceptW ⟨5, 3⟩ Key.B Key.A 5
    (.eip1559 10 260)).1
  have h2 := (C6_init_and_advance ⟨4, 9⟩ cfgW oAcceptW ⟨5, 3⟩ Key.B Key.A 5
    (.eip1559 10 260)).2.1 (by decide) (by decide) (by decide)
  have h3 := (C6_init_and_advance ⟨4, 9⟩ cfgW oOtherFailW ⟨5, 3⟩ Key.B Key.A 5
    (.eip1559 10 260)).2.2 "insufficient funds" (by decide) (by decide)
  exact ⟨h1.1, h1.2, h2, h3⟩

/-! ### Claim C8 -/

/-- Claim C8: when the fee-data query of turn `n` fails, the failure
propagates out of the fee estimator and aborts that cycle before signing: no
transaction is built or broadcast, both nonce counters are unchanged, and the
alternation continues: turn `n + 1` runs on the same state with the opposite
direction. -/
theorem C8_fee_error_aborts (cfg : Config) (env : Nat → CycleOracle)
    (s0 : NonceState) (n : Nat) (u : Unit)
    (hfee : compute_fee_values (env n).fee = .error u) :
    (outcomeAt cfg env s0 n).result = .raised ∧
    (outcomeAt cfg env s0 n).built = none ∧
    (outcomeAt cfg env s0 n).nonces = stateAt cfg env s0 n ∧
    stateAt cfg env s0 (n + 1) = stateAt cfg env s0 n ∧
    keyOf (n + 1) = (keyOf n).other := by
  have h := bas_raised cfg (env n) (stateAt cfg env s0 n) (recvOf n) (keyOf n) u hfee
  have hout : outcomeAt cfg env s0 n =
      ⟨.raised, stateAt cfg env s0 n, none, none, false, 0, false⟩ := h
  have hkey : keyOf (n + 1) = (keyOf n).other := by
    rcases Nat.mod_two_eq_zero_or_one n with hp | hp <;>
      have hs : (n + 1) % 2 = (n % 2 + 1) % 2 := by omega
    all_goals simp [keyOf, Key.other, hp, hs]
  exact ⟨by rw [hout], by rw [hout], by rw [hout], by rw [stateAt_succ, hout], hkey⟩

/-- Witness for C8: with a failing fee oracle at every turn, turn 0 raises,
builds nothing, and turn 1 starts from the unchanged state `⟨5, 3⟩` with
direction B→A. -/
theorem C8_witness :
    (outcomeAt cfgW (fun _ => oFeeFailW) ⟨5, 3⟩ 0).result = .raised ∧
    (outcomeAt cfgW (fun _ => oFeeFailW) ⟨5, 3⟩ 0).built = none ∧
    stateAt cfgW (fun _ => oFeeFailW) ⟨5, 3⟩ 1 = ⟨5, 3⟩ ∧
    keyOf 1 = Key.B := by
  have h := C8_fee_error_aborts cfgW (fun _ => oFeeFailW) ⟨5, 3⟩ 0 () (by decide)
  exact ⟨h.1, h.2.1, h.2.2.2.1, h.2.2.2.2⟩

/-! ### Claim C2 -/

/-- Counterexample to claim C2 as stated: a broadcast failure whose text
("nonce too low") matches the sequence-conflict family, but where the single
pending re-query itself fails; the handler issues the re-query, yet the
sender's stored sequence number is NOT overwritten by it — the state stays at
`⟨7, 2⟩` — while the claim asserts an unconditional overwrite by one fresh
pending-inclusive query. -/
theorem C2_counterexample :
    is_conflict_error "nonce too low" = true ∧
    oConfBadResyncW.broadcast = .error "nonce too low" ∧
    oConfBadResyncW.resyncCount = none ∧
    (build_and_send cfgW oConfBadResyncW ⟨7, 2⟩ Key.B Key.A).conflictBranch = true ∧
    (build_and_send cfgW oConfBadResyncW ⟨7, 2⟩ Key.B Key.A).resyncQueries = 1 ∧
    (build_and_send cfgW oConfBadResyncW ⟨7, 2⟩ Key.B Key.A).resyncApplied = false ∧
    (build_and_send cfgW oConfBadResyncW ⟨7, 2⟩ Key.B Key.A).nonces = ⟨7, 2⟩ := by
  decide

/-- Claim C2 (amended): for every broadcast failure, if the lower-cased error
text matches the sequence-conflict family (in particular any message
containing "nonce too low", "replacement transaction underpriced" or
"already known"), the handler issues exactly one fresh pending-inclusive
network query and, when that query succeeds, overwrites the sender's stored
sequence number with its result (when the re-query itself fails the stale
value is retained), and the cycle reports the conflict-classified failure;
for any other error text (in particular one containing "insufficient funds")
the cycle reports an other-classified failure and no sequence state is
mutated. -/
theorem C2_broadcast_error_classification (cfg : Config) (o : CycleOracle)
    (s : NonceState) (tk nk : Key) (fv : FeeParams) (msg : String)
    (hfee : compute_fee_values o.fee = .ok fv)
    (hb : o.broadcast = .error msg) :
    (is_conflict_error msg = true →
      (build_and_send cfg o s tk nk).result = .failed ∧
      (build_and_send cfg o s tk nk).conflictBranch = true ∧
      (build_and_send cfg o s tk nk).resyncQueries = 1 ∧
      (∀ v, o.resyncCount = some v →
        (build_and_send cfg o s tk nk).nonces = s.set nk v) ∧
      (o.resyncCount = none → (build_and_send cfg o s tk nk).nonces = s)) ∧
    (is_conflict_error msg = false →
      (build_and_send cfg o s tk nk).result = .failed ∧
      (build_and_send cfg o s tk nk).conflictBranch = false ∧
      (build_and_send cfg o s tk nk).resyncQueries = 0 ∧
      (build_and_send cfg o s tk nk).nonces = s) := by
  rw [bas_ok cfg o s tk nk fv hfee]
  unfold sendSigned
  rw [hb]
  constructor
  · intro hc
    cases hrc : o.resyncCount <;> simp [hc, hrc]
  · intro hc
    simp [hc]

/-- Witness for C2: "nonce too low" with a successful re-query (value 42)
overwrites A's entry to 42 after exactly one query; "insufficient funds"
leaves the state untouched with zero queries. -/
theorem C2_witness :
    (build_and_send cfgW oConfW ⟨7, 2⟩ Key.B Key.A).nonces = ⟨42, 2⟩ ∧
    (build_and_send cfgW oConfW ⟨7, 2⟩ Key.B Key.A).resyncQueries = 1 ∧
    (build_and_send cfgW oConfW ⟨7, 2⟩ Key.B Key.A).conflictBranch = true ∧
    (build_and_send cfgW oOtherFailW ⟨7, 2⟩ Key.B Key.A).nonces = ⟨7, 2⟩ ∧
    (build_and_send cfgW oOtherFailW ⟨7, 2⟩ Key.B Key.A).resyncQueries = 0 := by
  have h1 := (C2_broadcast_error_classification cfgW oConfW ⟨7, 2⟩ Key.B Key.A
    (.eip1559 10 260) "nonce too low" (by decide) (by decide)).1 (by decide)
  have h2 := (C2_broadcast_error_classification cfgW oOtherFailW ⟨7, 2⟩ Key.B Key.A
    (.eip1559 10 260) "insufficient funds" (by decide) (by decide)).2 (by decide)
  exact ⟨h1.2.2.2.1 42 (by decide), h1.2.2.1, h1.2.1, h2.2.2.2, h2.2.2.1⟩

/-! ### Claim C7 -/

/-- Counterexample to claim C7 as stated: with the configured
confirmation-wait count `-1` — non-zero, but not positive — an accepted
broadcast performs no receipt wait at all, while the claim asserts the wait
runs exactly when the count is non-zero. -/
theorem C7_counterexample :
    cfgNegW.waitForConfirmations ≠ 0 ∧
    oAcceptW.broadcast = .ok 5 ∧
    (build_and_send cfgNegW oAcceptW ⟨5, 3⟩ Key.B Key.A).waitCall = none ∧
    (build_and_send cfgNegW oAcceptW ⟨5, 3⟩ Key.B Key.A).result = .submitted 5 := by
  decide

/-- Claim C7 (amended): for every accepted broadcast, the receipt wait runs
exactly when the configured confirmation-wait count is positive, always with
total timeout 120 time-units and poll interval 2 time-units; when the wait
ends in a timeout the outcome is non-fatal: the call still returns the
transaction id and the advanced sequence counter is kept. -/
theorem C7_receipt_wait (cfg : Config) (o : CycleOracle) (s : NonceState)
    (tk nk : Key) (fv : FeeParams) (h : Nat)
    (hfee : compute_fee_values o.fee = .ok fv) (hb : o.broadcast = .ok h) :
    ((build_and_send cfg o s tk nk).waitCall = some (120, 2) ↔
      cfg.waitForConfirmations > 0) ∧
    ((build_and_send cfg o s tk nk).waitCall = none ↔
      ¬cfg.waitForConfirmations > 0) ∧
    (o.receiptWait = .timeout →
      (build_and_send cfg o s tk nk).result = .submitted h ∧
      (build_and_send cfg o s tk nk).nonces.get nk = s.get nk + 1) := by
  rw [bas_ok cfg o s tk nk fv hfee]
  unfold sendSigned
  rw [hb]
  by_cases hw : cfg.waitForConfirmations > 0
  · refine ⟨?_, ?_, ?_⟩
    · cases hrw : o.receiptWait
      all_goals simp [hw, hrw]
      all_goals cases hrc : o.resyncCount <;> split <;> simp
    · cases hrw : o.receiptWait
      all_goals simp [hw, hrw]
      all_goals cases hrc : o.resyncCount <;> split <;> simp
    · intro hrw
      rw [hrw]
      simp [hw, NonceState.get_set_eq]
  · refine ⟨?_, ?_, ?_⟩
    · simp [hw]
    · simp [hw]
    · intro hrw
      simp [hw, NonceState.get_set_eq]

/-- Witness for C7: with wait count 1, an accepted broadcast performs the
receipt wait with arguments `(120, 2)`; its timeout still returns the tx id
and keeps the advanced counter 6. -/
theorem C7_witness :
    (build_and_send cfgW oAcceptW ⟨5, 3⟩ Key.B Key.A).waitCall = some (120, 2) ∧
    (build_and_send cfgW oAcceptW ⟨5, 3⟩ Key.B Key.A).result = .submitted 5 ∧
    (build_and_send cfgW oAcceptW ⟨5, 3⟩ Key.B Key.A).nonces.get Key.A = 6 := by
  have h := C7_receipt_wait cfgW oAcceptW ⟨5, 3⟩ Key.B Key.A (.eip1559 10 260) 5
    (by decide) (by decide)
  exact ⟨h.1.mpr (by decide), (h.2.2 (by decide)).1, (h.2.2 (by decide)).2⟩

/-! ### Claim C10 -/

/-- Counterexample to claim C10 as stated: the broadcast is accepted, the
receipt wait raises an error containing "nonce", but the pending re-query
itself fails — so the just-advanced counter (8) is retained rather than
overwritten from a fresh network query, while the claim asserts an
unconditional overwrite. -/
theorem C10_counterexample :
    containsSub "nonce" (strLower "nonce mismatch") = true ∧
    oWaitErrBadResyncW.broadcast = .ok 5 ∧
    oWaitErrBadResyncW.receiptWait = .err "nonce mismatch" ∧
    oWaitErrBadResyncW.resyncCount = none ∧
    (build_and_send cfgW oWaitErrBadResyncW ⟨7, 2⟩ Key.B Key.A).result = .failed ∧
    (build_and_send cfgW oWaitErrBadResyncW ⟨7, 2⟩ Key.B Key.A).resyncApplied = false ∧
    (build_and_send cfgW oWaitErrBadResyncW ⟨7, 2⟩ Key.B Key.A).nonces = ⟨8, 2⟩ := by
  decide

/-- Claim C10 (amended): if the broadcast succeeds but the receipt wait then
raises an error other than the timeout error, `build_and_send` reports the
cycle as failed (returns no transaction id) even though the transaction was
already broadcast and the sender's counter already advanced; if that error's
text additionally contains "nonce", one fresh pending network query is issued
and, when it succeeds, its result overwrites the just-advanced counter (when
the re-query fails, the advanced value is retained); a non-conflict error
keeps the advanced counter. -/
theorem C10_receipt_error (cfg : Config) (o : CycleOracle) (s : NonceState)
    (tk nk : Key) (fv : FeeParams) (h : Nat) (m : String)
    (hfee : compute_fee_values o.fee = .ok fv) (hb : o.broadcast = .ok h)
    (hw : cfg.waitForConfirmations > 0) (hr : o.receiptWait = .err m) :
    (build_and_send cfg o s tk nk).result = .failed ∧
    (containsSub "nonce" (strLower m) = true →
      (build_and_send cfg o s tk nk).resyncQueries = 1 ∧
      (∀ v, o.resyncCount = some v →
        (build_and_send cfg o s tk nk).nonces.get nk = v ∧
        (build_and_send cfg o s tk nk).resyncApplied = true) ∧
      (o.resyncCount = none →
        (build_and_send cfg o s tk nk).nonces.get nk = s.get nk + 1 ∧
        (build_and_send cfg o s tk nk).resyncApplied = false)) ∧
    (is_conflict_error m = false →
      (build_and_send cfg o s tk nk).nonces.get nk = s.get nk + 1) := by
  rw [bas_ok cfg o s tk nk fv hfee]
  unfold sendSigned
  rw [hb, hr]
  refine ⟨?_, ?_, ?_⟩
  · cases hc : is_conflict_error m <;>
      cases hrc : o.resyncCount <;> simp [hw, hc, hrc]
  · intro hsub
    have hc : is_conflict_error m = true := by
      unfold is_conflict_error
      rw [hsub]
      rfl
    cases hrc : o.resyncCount <;>
      simp [hw, hc, hrc, NonceState.get_set_eq]
  · intro hc
    simp [hw, hc, NonceState.get_set_eq]

/-- Witness for C10: broadcast accepted at nonce 7, receipt wait raises
"nonce mismatch": the call reports failure; with a successful re-query the
counter is overwritten to 42; with a non-nonce error ("boom") the advanced
counter 8 is kept. -/
theorem C10_witness :
    (build_and_send cfgW oWaitErrW ⟨7, 2⟩ Key.B Key.A).result = .failed ∧
    (build_and_send cfgW oWaitErrW ⟨7, 2⟩ Key.B Key.A).resyncQueries = 1 ∧
    (build_and_send cfgW oWaitErrW ⟨7, 2⟩ Key.B Key.A).nonces.get Key.A = 42 ∧
    (build_and_send cfgW oWaitErrOtherW ⟨7, 2⟩ Key.B Key.A).nonces.get Key.A = 8 := by
  have h1 := C10_receipt_error cfgW oWaitErrW ⟨7, 2⟩ Key.B Key.A (.eip1559 10 260)
    5 "nonce mismatch" (by decide) (by decide) (by decide) (by decide)
  have h2 := C10_receipt_error cfgW oWaitErrOtherW ⟨7, 2⟩ Key.B Key.A
    (.eip1559 10 260) 5 "boom" (by decide) (by decide) (by decide) (by decide)
  have hn := (h1.2.1 (by decide)).2.1 42 (by decide)
  exact ⟨h1.1, (h1.2.1 (by decide)).1, hn.1, h2.2.2 (by decide)⟩

/-! ### Claim C1 -/

/-- Counterexample to claim C1 as stated: in the run whose every broadcast is
rejected with "insufficient funds" (an other-class error, so no resync ever
occurs), the transactions built for wallet A at turns 0 and 2 carry the same
sequence number 5 — two transactions built for the same account with a
colliding sequence number and no resync of A's counter between them. -/
theorem C1_counterexample :
    keyOf 0 = Key.A ∧ keyOf 2 = Key.A ∧
    ((outcomeAt cfgW (fun _ => oOtherFailW) ⟨5, 3⟩ 0).built.map BuiltTx.nonce =
      some 5) ∧
    ((outcomeAt cfgW (fun _ => oOtherFailW) ⟨5, 3⟩ 2).built.map BuiltTx.nonce =
      some 5) ∧
    (∀ l, l < 3 →
      (outcomeAt cfgW (fun _ => oOtherFailW) ⟨5, 3⟩ l).resyncApplied = false) := by
  decide

/-- Every transaction that gets built implies the fee query succeeded, and
the transaction is exactly the record assembled from the entry state. -/
theorem bas_built_fee (cfg : Config) (o : CycleOracle) (s : NonceState)
    (tk nk : Key) (tx : BuiltTx)
    (hb : (build_and_send cfg o s tk nk).built = some tx) :
    ∃ fv, compute_fee_values o.fee = .ok fv ∧ tx = builtTxOf cfg o s tk nk fv := by
  cases hfee : compute_fee_values o.fee with
  | error u =>
    rw [bas_raised cfg o s tk nk u hfee] at hb
    cases hb
  | ok fv =>
    rw [bas_ok cfg o s tk nk fv hfee, sendSigned_built] at hb
    exact ⟨fv, rfl, (Option.some.inj hb).symm⟩

/-- On an accepted broadcast with no resync overwrite, `sendSigned` ends with
the `nonce_key` entry advanced by exactly one — whether the call then returns
the tx hash or fails out of the receipt wait. -/
theorem sendSigned_ok_noresync_advance (cfg : Config) (o : CycleOracle)
    (s : NonceState) (nk : Key) (tx : BuiltTx) (h : Nat)
    (hb : o.broadcast = .ok h)
    (hres : (sendSigned cfg o s nk tx).resyncApplied = false) :
    (sendSigned cfg o s nk tx).nonces = s.set nk (s.get nk + 1) := by
  unfold sendSigned at hres ⊢
  rw [hb] at hres ⊢
  repeat' split at hres <;> repeat' split
  all_goals simp_all

/-- On an accepted broadcast with no resync overwrite, `build_and_send` ends
with the `nonce_key` entry advanced by exactly one. -/
theorem bas_ok_noresync_advance (cfg : Config) (o : CycleOracle)
    (s : NonceState) (tk nk : Key) (fv : FeeParams) (h : Nat)
    (hfee : compute_fee_values o.fee = .ok fv) (hb : o.broadcast = .ok h)
    (hres : (build_and_send cfg o s tk nk).resyncApplied = false) :
    (build_and_send cfg o s tk nk).nonces.get nk = s.get nk + 1 := by
  rw [bas_ok cfg o s tk nk fv hfee] at hres ⊢
  rw [sendSigned_ok_noresync_advance cfg o s nk _ h hb hres, NonceState.get_set_eq]

/-- Claim C1 (amended): for every account X, any two transactions built for X
within the process lifetime whose broadcasts were both accepted by the
network — whether or not the subsequent receipt wait failed — carry strictly
increasing, hence never colliding, sequence numbers, unless a resync of X's
counter occurred between them (including a post-broadcast resync in the
first transaction's own cycle); transactions whose broadcast was rejected
may reuse their sequence number on a later attempt. -/
theorem C1_accepted_nonces_increase (cfg : Config) (env : Nat → CycleOracle)
    (s0 : NonceState) (X : Key) (i j : Nat) (hi hj : Nat)
    (hij : i < j) (hXi : keyOf i = X) (hXj : keyOf j = X)
    (hbi : (env i).broadcast = .ok hi)
    (_hbj : (env j).broadcast = .ok hj)
    (hnores : ∀ l, l < j → i ≤ l → keyOf l = X →
      (outcomeAt cfg env s0 l).resyncApplied = false) :
    ∀ ti tj, (outcomeAt cfg env s0 i).built = some ti →
      (outcomeAt cfg env s0 j).built = some tj →
      ti.nonce < tj.nonce := by
  intro ti tj hti htj
  subst hXi
  unfold outcomeAt at hti htj
  obtain ⟨fvi, hfeei, htxi⟩ :=
    bas_built_fee cfg (env i) (stateAt cfg env s0 i) (recvOf i) (keyOf i) ti hti
  obtain ⟨fvj, hfeej, htxj⟩ :=
    bas_built_fee cfg (env j) (stateAt cfg env s0 j) (recvOf j) (keyOf j) tj htj
  have htin : ti.nonce = (stateAt cfg env s0 i).get (keyOf i) := by
    rw [htxi]
    rfl
  have htjn : tj.nonce = (stateAt cfg env s0 j).get (keyOf j) := by
    rw [htxj]
    rfl
  rw [hXj] at htjn
  have hresi : (outcomeAt cfg env s0 i).resyncApplied = false :=
    hnores i hij (le_refl i) rfl
  have hstep : (stateAt cfg env s0 (i + 1)).get (keyOf i) =
      (stateAt cfg env s0 i).get (keyOf i) + 1 := by
    rw [stateAt_succ]
    unfold outcomeAt at hresi ⊢
    exact bas_ok_noresync_advance cfg (env i) (stateAt cfg env s0 i) (recvOf i)
      (keyOf i) fvi hi hfeei hbi hresi
  have hmono := stateAt_mono cfg env s0 (keyOf i) (i + 1) j hij
    (fun l hl hal hk => hnores l hl (Nat.le_of_succ_le hal) hk)
  rw [htin, htjn]
  omega

/-- Witness for C1 (amended): in the run `envC1W` from `⟨5, 3⟩`, turn 0's
broadcast is accepted but the receipt wait fails with "boom", so the call
returns no tx id — yet wallet A's accepted transactions of turns 0 and 2
still carry strictly increasing nonces 5 < 6. -/
theorem C1_witness :
    (outcomeAt cfgW envC1W ⟨5, 3⟩ 0).result = .failed ∧
    (envC1W 0).broadcast = .ok 5 ∧
    (outcomeAt cfgW envC1W ⟨5, 3⟩ 0).built = some tiW ∧
    (outcomeAt cfgW envC1W ⟨5, 3⟩ 2).built = some tjW ∧
    tiW.nonce < tjW.nonce :=
  ⟨by decide, by decide, by decide, by decide,
    C1_accepted_nonces_increase cfgW envC1W ⟨5, 3⟩ Key.A 0 2 5 5
      (by decide) (by decide) (by decide) (by decide) (by decide)
      (by decide) tiW tjW (by decide) (by decide)⟩

end EthPingPong
